import Mathlib

/-!
Verification of the `types` package of the c2go transpiler: the cast /
conversion engine (`CastExpr`) and the fixed-array spelling parser
(`GetArrayTypeAndSize`).

The Go source is shallowly embedded:

* Go AST expressions (`go/ast.Expr`) become the inductive `GoExpr`.  A
  `BasicLit` keeps its token kind and its literal source text.  The byte
  elements produced by the string-to-byte-array rule are `CHAR` literals whose
  text is `fmt.Sprintf("%q", c)`; that stdlib rendering is reproduced by
  `goQuoteByte`.
* The Program Context is reduced to the one piece of state `CastExpr` touches:
  the set of registered import paths.
* `ResolveType` lives in another file of the repository; `CastExpr` only calls
  it.  It is abstracted as an explicit `resolve` argument of type
  `String → Except String String` (error or resolved spelling), so every
  theorem quantifies over the resolver behaviour it needs.
* `strconv.Unquote` (Go stdlib) is likewise abstracted as an
  `unquote : String → Option String` argument (`none` models the error case,
  which the Go code turns into a panic).
* A Go `panic` does not return; the result type `CastOut` therefore has
  explicit outcomes for the three panics that can occur inside `CastExpr`
  (failed `Unquote`, failed type assertion on the expression, and indexing
  `fromType[0]` on an empty string).
* The unanchored Go regexes are reproduced by explicit leftmost scanners over
  `List Char` (`scanBA`, `scanCP`, `containsSeq`, `findGats`), including the
  leftmost-start / greedy-`.*` submatch semantics of `regexp` for
  `(.*) \[(\d+)\]` in `GetArrayTypeAndSize`.
-/

/-- Token kind of a Go `BasicLit` (the kinds `CastExpr` manipulates). -/
inductive LitKind where
  | int
  | float
  | char
  | str
deriving DecidableEq, Repr

/-- Binary operators appearing in `CastExpr` output (`token.NEQ`). -/
inductive GoOp where
  | neq
deriving DecidableEq, Repr

/-- Unary operators appearing in `CastExpr` output (`token.NOT`). -/
inductive GoUnOp where
  | not
deriving DecidableEq, Repr

/-- Shallow model of the Go AST expressions `CastExpr` consumes and builds:
identifiers, basic literals, `BinaryExpr`, `UnaryExpr`, call expressions
(`util.NewCallExpr` always applies a named function), the `[]byte` composite
literal, and a `SliceExpr` with only a `High` bound. -/
inductive GoExpr where
  | ident : String → GoExpr
  | basicLit : LitKind → String → GoExpr
  | binary : GoExpr → GoOp → GoExpr → GoExpr
  | unary : GoUnOp → GoExpr → GoExpr
  | call : String → List GoExpr → GoExpr
  | byteArrayLit : List GoExpr → GoExpr
  | sliceHigh : GoExpr → GoExpr → GoExpr

/-- Modelled from the spec: the Program Context state touched by `CastExpr` is
"the set of runtime import paths required"; nothing else of `program.Program`
is read or written here. -/
structure Program where
  imports : List String
deriving DecidableEq, Repr

/-- Modelled from the spec: `program.Program.AddImport` registers an import
path, keeping the collection a set (adding an already present path is a
no-op). -/
def Program.AddImport (p : Program) (path : String) : Program :=
  if path ∈ p.imports then p else ⟨p.imports ++ [path]⟩

/-- Modelled from the spec: `util.NewNil` builds the `nil` identifier. -/
def NewNil : GoExpr := GoExpr.ident "nil"

/-- Modelled from the spec: `util.NewIntLit` renders an integer literal in
decimal. -/
def NewIntLit (n : Int) : GoExpr := GoExpr.basicLit LitKind.int (toString n)

/-- Modelled from the spec: `util.NewFloatLit(0.0)` is the floating null
literal `0.0` of §4.3 rule 3. -/
def NewFloatLit0 : GoExpr := GoExpr.basicLit LitKind.float "0.0"

/-- Modelled from the spec: `util.NewStringLit` wraps a quoted string text in
a `STRING` basic literal. -/
def NewStringLit (v : String) : GoExpr := GoExpr.basicLit LitKind.str v

/-- The `types` list inside `CastExpr`: integer and floating primitives plus
known aliases, between which a direct conversion (or a `!= 0` boolean test)
is legal. -/
def compatibleTypes : List String :=
  ["byte",
   "int", "int8", "int16", "int32", "int64",
   "uint8", "uint16", "uint32", "uint64",
   "float32", "float64",
   "__uint16_t", "size_t",
   "__darwin_ct_rune_t", "darwin.CtRuneT"]

/-- Decimal value of a digit string, as `util.Atoi` computes it on the digit
group captured by the regexes (machine overflow is irrelevant at the sizes a
C array spelling can carry). -/
def digitsVal (ds : List Char) : Nat :=
  ds.foldl (fun a c => a * 10 + (c.toNat - 48)) 0

/-- Leftmost match of the unanchored regex `\[(\d+)\]byte`: value of the digit
group of the first `[N]byte` occurrence, if any.  Greedy `\d+` makes the digit
run maximal, so a match at a position requires the full digit run there to be
followed by `]byte`. -/
def scanBA : List Char → Option Nat
  | [] => none
  | c :: rest =>
    if c = '[' then
      let ds := rest.takeWhile Char.isDigit
      let r := rest.dropWhile Char.isDigit
      if ds ≠ [] ∧ "]byte".data.isPrefixOf r then some (digitsVal ds) else scanBA rest
    else scanBA rest

/-- Leftmost match of the unanchored regex `char \*\[(\d+)\]`: value of the
digit group of the first `char *[N]` occurrence, if any. -/
def scanCP : List Char → Option Nat
  | [] => none
  | c :: rest =>
    if "char *[".data.isPrefixOf (c :: rest) then
      let after := (c :: rest).drop 7
      let ds := after.takeWhile Char.isDigit
      let r := after.dropWhile Char.isDigit
      if ds ≠ [] ∧ "]".data.isPrefixOf r then some (digitsVal ds) else scanCP rest
    else scanCP rest

/-- Whether the unanchored regex `\[\]byte` matches, i.e. whether the char
list contains the substring `[]byte`. -/
def containsSeq : List Char → Bool
  | [] => false
  | c :: rest => "[]byte".data.isPrefixOf (c :: rest) || containsSeq rest

/-- The suffix after the last `.`: what `strings.Split(s, ".")` followed by
taking the last part computes. -/
def afterLastDot (l : List Char) : List Char :=
  (l.reverse.takeWhile (fun c => !(c == '.'))).reverse

/-- `strings.Index(s, ".") != -1` guarding `strings.Split(s, ".")` and taking
the last part — the package-prefix stripping step of the `CastExpr`
fallback. -/
def lastDotComponent (s : String) : String :=
  if '.' ∈ s.data then String.mk (afterLastDot s.data) else s

/-- Modelled from the spec: `util.GetExportedName` is not among the sources;
the spec's fallback rule builds the shim name from the "exported-cased
remainders" after stripping qualifiers.  Leading pointer/underscore markers
are stripped and the first remaining character is upper-cased. -/
def GetExportedName (s : String) : String :=
  match s.data.dropWhile (fun c => c = '*' || c = '_') with
  | [] => ""
  | c :: cs => String.mk (c.toUpper :: cs)

/-- One hexadecimal digit, lower case. -/
def hexDigitChar (n : Nat) : Char :=
  if n < 10 then Char.ofNat (48 + n) else Char.ofNat (87 + n)

/-- Two lower-case hexadecimal digits of `n % 256`. -/
def hex2 (n : Nat) : String :=
  String.mk [hexDigitChar (n / 16 % 16), hexDigitChar (n % 16)]

/-- Rendering of `fmt.Sprintf("%q", c)` for a byte `c` (Go stdlib): a
single-quoted character literal with the escaping of `strconv.QuoteRune`. -/
def goQuoteByte (b : UInt8) : String :=
  let n := b.toNat
  let q := String.mk [Char.ofNat 39]
  let body :=
    if n = 39 then "\\" ++ q
    else if n = 92 then "\\\\"
    else if 32 ≤ n ∧ n ≤ 126 then String.mk [Char.ofNat n]
    else if n = 7 then "\\a"
    else if n = 8 then "\\b"
    else if n = 12 then "\\f"
    else if n = 10 then "\\n"
    else if n = 13 then "\\r"
    else if n = 9 then "\\t"
    else if n = 11 then "\\v"
    else if n < 32 ∨ n = 127 then "\\x" ++ hex2 n
    else if 161 ≤ n ∧ n ≠ 173 then String.mk [Char.ofNat n]
    else "\\u00" ++ hex2 n
  q ++ body ++ q

/-- UTF-8 encoding of one character, the byte expansion Go applies in
`[]byte(strValue)`. -/
def utf8Encode (c : Char) : List UInt8 :=
  let n := c.toNat
  if n < 128 then [UInt8.ofNat n]
  else if n < 2048 then
    [UInt8.ofNat (192 + n / 64), UInt8.ofNat (128 + n % 64)]
  else if n < 65536 then
    [UInt8.ofNat (224 + n / 4096), UInt8.ofNat (128 + n / 64 % 64),
     UInt8.ofNat (128 + n % 64)]
  else
    [UInt8.ofNat (240 + n / 262144), UInt8.ofNat (128 + n / 4096 % 64),
     UInt8.ofNat (128 + n / 64 % 64), UInt8.ofNat (128 + n % 64)]

/-- The bytes of a Go string value, i.e. `[]byte(s)`. -/
def stringBytes (s : String) : List UInt8 :=
  s.data.flatMap utf8Encode

/-- The import path `CastExpr` registers before emitting a fallback shim
call. -/
def noarchPath : String := "github.com/elliotchance/c2go/noarch"

/-- Outcome of a `CastExpr` call: a Go `(ast.Expr, error)` return, or one of
the three panics the function body can raise. -/
inductive CastOut where
  | ret : Program → GoExpr → Option String → CastOut
  | panicUnquote : String → CastOut
  | panicAssert : CastOut
  | panicIndex : CastOut

/-- The array size picked in the byte-sequence-to-string rule: the `[N]byte`
match if present, otherwise the `char *[N]` match (the Go code reads
`match2[1]` in the else branch; under the guard one of the two matched). -/
def arraySizeOf (s : String) : Int :=
  match scanBA s.data with
  | some n => (n : Int)
  | none =>
    match scanCP s.data with
    | some n => (n : Int)
    | none => 0

/-- Body of the string-to-byte-array branch of `CastExpr`: the Go code
asserts the expression is a `*goast.BasicLit` (panicking otherwise), unquotes
its text (panicking on failure) and builds a `[]byte` composite literal of
the string's bytes followed by a terminating 0. -/
def stringToBytes (unquote : String → Option String) (p : Program) :
    GoExpr → CastOut
  | GoExpr.basicLit _ v =>
    (match unquote v with
     | none => CastOut.panicUnquote ("Failed to Unquote " ++ v ++ "\n")
     | some sv =>
       CastOut.ret p
         (GoExpr.byteArrayLit
           ((stringBytes sv).map (fun c => GoExpr.basicLit LitKind.char (goQuoteByte c))
             ++ [NewIntLit 0])) none)
  | _ => CastOut.panicAssert

/-- Embedding of `types.CastExpr`.  `resolve` abstracts `ResolveType p`,
`unquote` abstracts `strconv.Unquote`; both are called exactly where the Go
code calls them.  Every branch is in the source's order. -/
def CastExpr (resolve : String → Except String String)
    (unquote : String → Option String) (p : Program) (expr : GoExpr)
    (fromType0 toType0 : String) : CastOut :=
  if toType0 = "void *" then CastOut.ret p expr none else
  match resolve fromType0 with
  | Except.error m => CastOut.ret p expr (some m)
  | Except.ok fromType =>
  match resolve toType0 with
  | Except.error m => CastOut.ret p expr (some m)
  | Except.ok toType =>
  if fromType = "null" ∧ toType = "[][]byte" then CastOut.ret p NewNil none else
  if fromType = "null" ∧ toType = "float64" then CastOut.ret p NewFloatLit0 none else
  if fromType = "null" ∧ toType = "bool" then CastOut.ret p (GoExpr.ident "false") none else
  if fromType = "" ∨ toType = "" then CastOut.ret p expr none else
  if fromType = "null" ∧ toType = "[]byte" then CastOut.ret p NewNil none else
  if fromType = "*_IO_FILE" ∧ toType = "*noarch.File" then CastOut.ret p expr none else
  if fromType = toType then CastOut.ret p expr none else
  if fromType ∈ compatibleTypes ∧ toType = "bool" then
    CastOut.ret p (GoExpr.binary expr GoOp.neq (NewIntLit 0)) none else
  if fromType = "string" ∧ (containsSeq toType.data ∨ (scanCP toType.data).isSome) then
    stringToBytes unquote p expr else
  if ((scanBA fromType.data).isSome ∨ (scanCP fromType.data).isSome) ∧ toType = "string" then
    CastOut.ret p
      (GoExpr.call "string" [GoExpr.sliceHigh expr (NewIntLit (arraySizeOf fromType - 1))])
      none else
  match fromType.data with
  | [] => CastOut.panicIndex
  | c0 :: _ =>
  if c0 = '*' ∧ toType = "bool" then
    CastOut.ret p (GoExpr.binary expr GoOp.neq NewNil) none else
  if fromType = "[]byte" ∧ toType = "bool" then
    CastOut.ret p (GoExpr.unary GoUnOp.not (GoExpr.call "noarch.CStringIsNull" [expr])) none else
  if fromType = "int" ∧ toType = "*int" then CastOut.ret p NewNil none else
  if fromType = "int" ∧ toType = "*byte" then CastOut.ret p (NewStringLit "\"\"") none else
  if fromType = "_Bool" ∧ toType = "bool" then CastOut.ret p expr none else
  if fromType ∈ compatibleTypes ∧ toType ∈ compatibleTypes then
    CastOut.ret p (GoExpr.call toType [expr]) none else
  CastOut.ret (p.AddImport noarchPath)
    (GoExpr.call
      ("noarch." ++ GetExportedName (lastDotComponent fromType) ++ "To"
        ++ GetExportedName (lastDotComponent toType)) [expr]) none

/-- Match attempt of `(.*) \[(\d+)\]` at one position of the digit-group
pattern: the suffix must start with a space, an opening bracket, a non-empty
digit run, and a closing bracket right after the run (greedy `\d+`). -/
def patternAt (l : List Char) : Option Nat :=
  match l with
  | c1 :: c2 :: r2 =>
    if c1 = ' ' ∧ c2 = '[' then
      if r2.takeWhile Char.isDigit ≠ [] ∧ (r2.dropWhile Char.isDigit).head? = some ']' then
        some (digitsVal (r2.takeWhile Char.isDigit))
      else none
    else none
  | _ => none

/-- Match of `(.*) \[(\d+)\]` starting exactly at the head of `l`: the greedy
`.*` group takes the longest newline-free prefix that is followed by the
bracket pattern; returns that group and the digit-group value. -/
def tryStart (l : List Char) : Option (List Char × Nat) :=
  match l with
  | [] => none
  | c :: rest =>
    if c = '\n' then none
    else
      match tryStart rest with
      | some (A, n) => some (c :: A, n)
      | none =>
        match patternAt (c :: rest) with
        | some n => some ([], n)
        | none => none

/-- Leftmost-first match of `(.*) \[(\d+)\]` over the whole char list, the
semantics of `FindStringSubmatch`: earliest start position wins, greedy
groups within it. -/
def findGats (l : List Char) : Option (List Char × Nat) :=
  match l with
  | [] => none
  | _ :: rest =>
    match tryStart l with
    | some r => some r
    | none => findGats rest

/-- Embedding of `types.GetArrayTypeAndSize`: the `(.*)` group and the value
of the `(\d+)` group of the leftmost `(.*) \[(\d+)\]` match, or `("", -1)`
when the regex does not match. -/
def GetArrayTypeAndSize (s : String) : String × Int :=
  match findGats s.data with
  | some (A, n) => (String.mk A, (n : Int))
  | none => ("", -1)

/-! ## Helper lemmas -/

lemma string_eq_empty_of_data_nil {s : String} (h : s.data = []) : s = "" := by
  cases s
  simp_all

lemma compat_not_null : "null" ∉ compatibleTypes := by decide

lemma compat_not_empty : "" ∉ compatibleTypes := by decide

lemma compat_not_bool : "bool" ∉ compatibleTypes := by decide

lemma compat_head_ne_star : ∀ x ∈ compatibleTypes, x.data.head? ≠ some '*' := by decide

/-- Shared concrete resolver for witnesses: every spelling resolves to
itself. -/
def idResolve : String → Except String String := fun s => Except.ok s

/-- Shared concrete unquoter for witnesses that never reach the string
branch. -/
def noUnquote : String → Option String := fun _ => none

/-! ## C2: cast to the same type is the identity -/

/-- C2: for every expression `e` and every type spelling `T` that resolves to
a non-empty spelling, `CastExpr e T T` returns `e` unchanged with a nil
error. -/
theorem castExpr_identity (resolve : String → Except String String)
    (unquote : String → Option String) (p : Program) (e : GoExpr) (T s : String)
    (hres : resolve T = Except.ok s) (hne : s ≠ "") :
    CastExpr resolve unquote p e T T = CastOut.ret p e none := by
  have h1 : ¬(s = "null" ∧ s = "[][]byte") := fun h => absurd (h.1 ▸ h.2) (by decide)
  have h2 : ¬(s = "null" ∧ s = "float64") := fun h => absurd (h.1 ▸ h.2) (by decide)
  have h3 : ¬(s = "null" ∧ s = "bool") := fun h => absurd (h.1 ▸ h.2) (by decide)
  have h4 : ¬(s = "" ∨ s = "") := fun h => h.elim hne hne
  have h5 : ¬(s = "null" ∧ s = "[]byte") := fun h => absurd (h.1 ▸ h.2) (by decide)
  have h6 : ¬(s = "*_IO_FILE" ∧ s = "*noarch.File") := fun h => absurd (h.1 ▸ h.2) (by decide)
  unfold CastExpr
  by_cases hv : T = "void *"
  · rw [if_pos hv]
  · rw [if_neg hv, hres]
    dsimp only
    rw [if_neg h1, if_neg h2, if_neg h3, if_neg h4, if_neg h5, if_neg h6, if_pos rfl]

/-- C2 witness: casting `x` from `int` to `int` is the identity. -/
theorem castExpr_identity_witness :
    CastExpr idResolve noUnquote ⟨[]⟩ (GoExpr.ident "x") "int" "int"
      = CastOut.ret ⟨[]⟩ (GoExpr.ident "x") none :=
  castExpr_identity idResolve noUnquote ⟨[]⟩ (GoExpr.ident "x") "int" "int" rfl
    (by decide)

/-! ## C5: numeric to boolean -/

/-- C5: when the source spelling resolves to a member of the
primitive-numeric / known-alias table and the target resolves to `bool`,
`CastExpr` returns the comparison `e != 0`. -/
theorem castExpr_numeric_bool (resolve : String → Except String String)
    (unquote : String → Option String) (p : Program) (e : GoExpr)
    (fT tT f : String) (hf : resolve fT = Except.ok f)
    (hmem : f ∈ compatibleTypes) (ht : resolve tT = Except.ok "bool")
    (hv : tT ≠ "void *") :
    CastExpr resolve unquote p e fT tT
      = CastOut.ret p (GoExpr.binary e GoOp.neq (NewIntLit 0)) none := by
  have h1 : ¬(f = "null" ∧ ("bool" : String) = "[][]byte") := fun h => absurd h.2 (by decide)
  have h2 : ¬(f = "null" ∧ ("bool" : String) = "float64") := fun h => absurd h.2 (by decide)
  have h3 : ¬(f = "null" ∧ ("bool" : String) = "bool") :=
    fun h => absurd (h.1 ▸ hmem) compat_not_null
  have h4 : ¬(f = "" ∨ ("bool" : String) = "") := fun h =>
    h.elim (fun h1 => absurd (h1 ▸ hmem) compat_not_empty) (fun h2 => absurd h2 (by decide))
  have h5 : ¬(f = "null" ∧ ("bool" : String) = "[]byte") := fun h => absurd h.2 (by decide)
  have h6 : ¬(f = "*_IO_FILE" ∧ ("bool" : String) = "*noarch.File") :=
    fun h => absurd h.2 (by decide)
  have h7 : f ≠ "bool" := fun h => absurd (h ▸ hmem) compat_not_bool
  unfold CastExpr
  rw [if_neg hv, hf, ht]
  dsimp only
  rw [if_neg h1, if_neg h2, if_neg h3, if_neg h4, if_neg h5, if_neg h6, if_neg h7,
      if_pos ⟨hmem, rfl⟩]

/-- C5 witness: `int` to `bool` becomes `x != 0`. -/
theorem castExpr_numeric_bool_witness :
    CastExpr idResolve noUnquote ⟨[]⟩ (GoExpr.ident "x") "int" "bool"
      = CastOut.ret ⟨[]⟩ (GoExpr.binary (GoExpr.ident "x") GoOp.neq (NewIntLit 0)) none :=
  castExpr_numeric_bool idResolve noUnquote ⟨[]⟩ (GoExpr.ident "x") "int" "bool"
    "int" rfl (by decide) rfl (by decide)

/-! ## C6: pointer to boolean -/

/-- C6: when the source spelling resolves to a pointer spelling (first
character `*`) and the target resolves to `bool`, `CastExpr` returns the
comparison `e != nil`. -/
theorem castExpr_pointer_bool (resolve : String → Except String String)
    (unquote : String → Option String) (p : Program) (e : GoExpr)
    (fT tT f : String) (hf : resolve fT = Except.ok f)
    (hstar : f.data.head? = some '*') (ht : resolve tT = Except.ok "bool")
    (hv : tT ≠ "void *") :
    CastExpr resolve unquote p e fT tT
      = CastOut.ret p (GoExpr.binary e GoOp.neq NewNil) none := by
  obtain ⟨tl, hd⟩ : ∃ tl, f.data = '*' :: tl := by
    cases hdd : f.data with
    | nil => rw [hdd] at hstar; cases hstar
    | cons a b =>
      rw [hdd] at hstar
      simp only [List.head?_cons, Option.some.injEq] at hstar
      exact ⟨b, by rw [hstar]⟩
  have hlit : ∀ t : String, t.data.head? ≠ some '*' → f ≠ t :=
    fun t hh heq => hh (heq ▸ hstar)
  have h1 : ¬(f = "null" ∧ ("bool" : String) = "[][]byte") :=
    fun h => absurd h.1 (hlit "null" (by decide))
  have h2 : ¬(f = "null" ∧ ("bool" : String) = "float64") := fun h => absurd h.2 (by decide)
  have h3 : ¬(f = "null" ∧ ("bool" : String) = "bool") :=
    fun h => absurd h.1 (hlit "null" (by decide))
  have h4 : ¬(f = "" ∨ ("bool" : String) = "") := fun h =>
    h.elim (fun hx => absurd hx (hlit "" (by decide))) (fun hx => absurd hx (by decide))
  have h5 : ¬(f = "null" ∧ ("bool" : String) = "[]byte") :=
    fun h => absurd h.1 (hlit "null" (by decide))
  have h6 : ¬(f = "*_IO_FILE" ∧ ("bool" : String) = "*noarch.File") :=
    fun h => absurd h.2 (by decide)
  have h7 : f ≠ "bool" := hlit "bool" (by decide)
  have h8 : ¬(f ∈ compatibleTypes ∧ ("bool" : String) = "bool") :=
    fun h => absurd hstar (compat_head_ne_star f h.1)
  have h9 : ¬(f = "string" ∧
      (containsSeq ("bool" : String).data ∨ (scanCP ("bool" : String).data).isSome)) :=
    fun h => absurd h.1 (hlit "string" (by decide))
  have h10 : ¬(((scanBA f.data).isSome ∨ (scanCP f.data).isSome) ∧
      ("bool" : String) = "string") := fun h => absurd h.2 (by decide)
  unfold CastExpr
  rw [if_neg hv, hf, ht]
  dsimp only
  rw [if_neg h1, if_neg h2, if_neg h3, if_neg h4, if_neg h5, if_neg h6, if_neg h7,
      if_neg h8, if_neg h9, if_neg h10, hd]
  dsimp only
  rw [if_pos ⟨rfl, rfl⟩]

/-- C6 witness: `*int` to `bool` becomes `p != nil`. -/
theorem castExpr_pointer_bool_witness :
    CastExpr idResolve noUnquote ⟨[]⟩ (GoExpr.ident "p") "*int" "bool"
      = CastOut.ret ⟨[]⟩ (GoExpr.binary (GoExpr.ident "p") GoOp.neq NewNil) none :=
  castExpr_pointer_bool idResolve noUnquote ⟨[]⟩ (GoExpr.ident "p") "*int" "bool"
    "*int" rfl rfl rfl (by decide)

/-! ## C1: null literal conversions -/

/-- C1 (amended): with the distinguished `null` source spelling, `CastExpr`
yields `nil` exactly for the sequence targets `[][]byte` and `[]byte`, the
literal `0.0` for the `float64` target, and `false` for the `bool` target.
(General pointer targets, `float32` and `string` are not special-cased; they
fall through to the later rules.) -/
theorem castExpr_null_literal_targets (resolve : String → Except String String)
    (unquote : String → Option String) (p : Program) (e : GoExpr) (tT : String)
    (hres : resolve "null" = Except.ok "null") (hv : tT ≠ "void *") :
    (resolve tT = Except.ok "[][]byte" →
      CastExpr resolve unquote p e "null" tT = CastOut.ret p NewNil none)
  ∧ (resolve tT = Except.ok "float64" →
      CastExpr resolve unquote p e "null" tT = CastOut.ret p NewFloatLit0 none)
  ∧ (resolve tT = Except.ok "bool" →
      CastExpr resolve unquote p e "null" tT = CastOut.ret p (GoExpr.ident "false") none)
  ∧ (resolve tT = Except.ok "[]byte" →
      CastExpr resolve unquote p e "null" tT = CastOut.ret p NewNil none) := by
  refine ⟨fun ht => ?_, fun ht => ?_, fun ht => ?_, fun ht => ?_⟩
  · unfold CastExpr
    rw [if_neg hv, hres, ht]
    dsimp only
    rw [if_pos ⟨rfl, rfl⟩]
  · unfold CastExpr
    rw [if_neg hv, hres, ht]
    dsimp only
    rw [if_neg (show ¬(("null" : String) = "null" ∧ ("float64" : String) = "[][]byte") from
          fun h => absurd h.2 (by decide)),
        if_pos ⟨rfl, rfl⟩]
  · unfold CastExpr
    rw [if_neg hv, hres, ht]
    dsimp only
    rw [if_neg (show ¬(("null" : String) = "null" ∧ ("bool" : String) = "[][]byte") from
          fun h => absurd h.2 (by decide)),
        if_neg (show ¬(("null" : String) = "null" ∧ ("bool" : String) = "float64") from
          fun h => absurd h.2 (by decide)),
        if_pos ⟨rfl, rfl⟩]
  · unfold CastExpr
    rw [if_neg hv, hres, ht]
    dsimp only
    rw [if_neg (show ¬(("null" : String) = "null" ∧ ("[]byte" : String) = "[][]byte") from
          fun h => absurd h.2 (by decide)),
        if_neg (show ¬(("null" : String) = "null" ∧ ("[]byte" : String) = "float64") from
          fun h => absurd h.2 (by decide)),
        if_neg (show ¬(("null" : String) = "null" ∧ ("[]byte" : String) = "bool") from
          fun h => absurd h.2 (by decide)),
        if_neg (show ¬(("null" : String) = "" ∨ ("[]byte" : String) = "") from
          fun h => h.elim (fun hx => absurd hx (by decide)) (fun hx => absurd hx (by decide))),
        if_pos ⟨rfl, rfl⟩]

/-- C1 witness: `null` to `[][]byte` yields `nil`. -/
theorem castExpr_null_literal_targets_witness :
    CastExpr idResolve noUnquote ⟨[]⟩ (GoExpr.ident "e") "null" "[][]byte"
      = CastOut.ret ⟨[]⟩ NewNil none :=
  (castExpr_null_literal_targets idResolve noUnquote ⟨[]⟩ (GoExpr.ident "e")
    "[][]byte" rfl (by decide)).1 rfl

/-- C1 counterexample: for the pointer target `*int` (with every spelling
resolving to itself), a `null` source does not become `nil`; it falls through
to the fallback shim call `noarch.NullToInt(e)`. -/
theorem castExpr_null_pointer_target_cex :
    CastExpr idResolve noUnquote ⟨[]⟩ (GoExpr.ident "e") "null" "*int"
      = CastOut.ret ⟨[noarchPath]⟩ (GoExpr.call "noarch.NullToInt" [GoExpr.ident "e"]) none
  ∧ GoExpr.call "noarch.NullToInt" [GoExpr.ident "e"] ≠ NewNil := by
  constructor
  · rfl
  · intro h
    cases h

/-- `stringToBytes` never yields the index panic: its outcomes are a return,
an unquote panic or an assertion panic. -/
lemma stringToBytes_ne_panicIndex (unquote : String → Option String)
    (p : Program) (e : GoExpr) :
    stringToBytes unquote p e ≠ CastOut.panicIndex := by
  cases e <;> try (intro h; cases h)
  rename_i k v
  simp only [stringToBytes]
  cases hu : unquote v with
  | none => intro h; cases h
  | some sv => intro h; cases h

/-! ## C10: the pointer test never indexes an empty resolved spelling -/

/-- C10: no execution of `CastExpr` reaches the `fromType[0]` read with an
empty resolved source spelling: the empty-spelling branch has already
returned, so the out-of-bounds-index outcome is unreachable for all inputs. -/
theorem castExpr_no_index_panic (resolve : String → Except String String)
    (unquote : String → Option String) (p : Program) (e : GoExpr)
    (fT tT : String) :
    CastExpr resolve unquote p e fT tT ≠ CastOut.panicIndex := by
  by_cases hv : tT = "void *"
  · unfold CastExpr
    rw [if_pos hv]
    intro h; cases h
  cases hrf : resolve fT with
  | error m =>
    unfold CastExpr
    rw [if_neg hv, hrf]
    intro h; cases h
  | ok f =>
  cases hrt : resolve tT with
  | error m =>
    unfold CastExpr
    rw [if_neg hv, hrf, hrt]
    intro h; cases h
  | ok t =>
  unfold CastExpr
  rw [if_neg hv, hrf, hrt]
  dsimp only
  by_cases h1 : f = "null" ∧ t = "[][]byte"
  · rw [if_pos h1]; intro h; cases h
  rw [if_neg h1]
  by_cases h2 : f = "null" ∧ t = "float64"
  · rw [if_pos h2]; intro h; cases h
  rw [if_neg h2]
  by_cases h3 : f = "null" ∧ t = "bool"
  · rw [if_pos h3]; intro h; cases h
  rw [if_neg h3]
  by_cases h4 : f = "" ∨ t = ""
  · rw [if_pos h4]; intro h; cases h
  rw [if_neg h4]
  by_cases h5 : f = "null" ∧ t = "[]byte"
  · rw [if_pos h5]; intro h; cases h
  rw [if_neg h5]
  by_cases h6 : f = "*_IO_FILE" ∧ t = "*noarch.File"
  · rw [if_pos h6]; intro h; cases h
  rw [if_neg h6]
  by_cases h7 : f = t
  · rw [if_pos h7]; intro h; cases h
  rw [if_neg h7]
  by_cases h8 : f ∈ compatibleTypes ∧ t = "bool"
  · rw [if_pos h8]; intro h; cases h
  rw [if_neg h8]
  by_cases h9 : f = "string" ∧ (containsSeq t.data ∨ (scanCP t.data).isSome)
  · rw [if_pos h9]
    exact stringToBytes_ne_panicIndex unquote p e
  rw [if_neg h9]
  by_cases h10 : ((scanBA f.data).isSome ∨ (scanCP f.data).isSome) ∧ t = "string"
  · rw [if_pos h10]; intro h; cases h
  rw [if_neg h10]
  cases hdt : f.data with
  | nil => exact absurd (Or.inl (string_eq_empty_of_data_nil hdt)) h4
  | cons c0 tl =>
  dsimp only
  by_cases h11 : c0 = '*' ∧ t = "bool"
  · rw [if_pos h11]; intro h; cases h
  rw [if_neg h11]
  by_cases h12 : f = "[]byte" ∧ t = "bool"
  · rw [if_pos h12]; intro h; cases h
  rw [if_neg h12]
  by_cases h13 : f = "int" ∧ t = "*int"
  · rw [if_pos h13]; intro h; cases h
  rw [if_neg h13]
  by_cases h14 : f = "int" ∧ t = "*byte"
  · rw [if_pos h14]; intro h; cases h
  rw [if_neg h14]
  by_cases h15 : f = "_Bool" ∧ t = "bool"
  · rw [if_pos h15]; intro h; cases h
  rw [if_neg h15]
  by_cases h16 : f ∈ compatibleTypes ∧ t ∈ compatibleTypes
  · rw [if_pos h16]; intro h; cases h
  rw [if_neg h16]
  intro h; cases h

/-! ## Scanner lemmas for the array regexes -/

lemma ne_of_data_head {a b : String} (h : a.data.head? ≠ b.data.head?) : a ≠ b :=
  fun he => h (congrArg (fun s => s.data.head?) he)

lemma takeWhile_digits (D r : List Char) (hd : ∀ c ∈ D, c.isDigit = true) :
    (D ++ ']' :: r).takeWhile Char.isDigit = D := by
  induction D with
  | nil => simp
  | cons a as ih =>
    have ha : a.isDigit = true := hd a (List.mem_cons_self a as)
    simp only [List.cons_append, List.takeWhile_cons_of_pos ha]
    rw [ih (fun c hc => hd c (List.mem_cons_of_mem a hc))]

lemma dropWhile_digits (D r : List Char) (hd : ∀ c ∈ D, c.isDigit = true) :
    (D ++ ']' :: r).dropWhile Char.isDigit = ']' :: r := by
  induction D with
  | nil => simp
  | cons a as ih =>
    have ha : a.isDigit = true := hd a (List.mem_cons_self a as)
    simp only [List.cons_append, List.dropWhile_cons_of_pos ha]
    exact ih (fun c hc => hd c (List.mem_cons_of_mem a hc))

lemma scanCP_exact (D B : List Char) (hne : D ≠ [])
    (hd : ∀ c ∈ D, c.isDigit = true) :
    scanCP ('c' :: 'h' :: 'a' :: 'r' :: ' ' :: '*' :: '[' :: (D ++ ']' :: B))
      = some (digitsVal D) := by
  simp only [scanCP]
  rw [if_pos (by simp [List.isPrefixOf] : ("char *[".data.isPrefixOf
      ('c' :: 'h' :: 'a' :: 'r' :: ' ' :: '*' :: '[' :: (D ++ ']' :: B)) = true))]
  have hdrop : ('c' :: 'h' :: 'a' :: 'r' :: ' ' :: '*' :: '[' :: (D ++ ']' :: B)).drop 7
      = D ++ ']' :: B := rfl
  rw [hdrop, takeWhile_digits D B hd, dropWhile_digits D B hd,
      if_pos ⟨hne, by simp [List.isPrefixOf]⟩]

lemma scanBA_cons_ne (c : Char) (rest : List Char) (h : ¬ c = '[') :
    scanBA (c :: rest) = scanBA rest := by
  simp only [scanBA]
  rw [if_neg h]

lemma scanBA_cons_bracket (rest : List Char) :
    scanBA ('[' :: rest)
      = if rest.takeWhile Char.isDigit ≠ [] ∧
            "]byte".data.isPrefixOf (rest.dropWhile Char.isDigit) then
          some (digitsVal (rest.takeWhile Char.isDigit))
        else scanBA rest := by
  simp only [scanBA]
  rw [if_pos trivial]

lemma scanBA_exact (D B : List Char) (hne : D ≠ [])
    (hd : ∀ c ∈ D, c.isDigit = true) :
    scanBA ('[' :: (D ++ ']' :: 'b' :: 'y' :: 't' :: 'e' :: B))
      = some (digitsVal D) := by
  rw [scanBA_cons_bracket, takeWhile_digits D ('b' :: 'y' :: 't' :: 'e' :: B) hd,
      dropWhile_digits D ('b' :: 'y' :: 't' :: 'e' :: B) hd,
      if_pos ⟨hne, by simp [List.isPrefixOf]⟩]

lemma scanBA_no_bracket (l : List Char) (h : ∀ c ∈ l, c ≠ '[') :
    scanBA l = none := by
  induction l with
  | nil => rfl
  | cons a as ih =>
    simp only [scanBA]
    rw [if_neg (h a (List.mem_cons_self a as))]
    exact ih (fun c hc => h c (List.mem_cons_of_mem a hc))

lemma scanBA_charptr_none (D : List Char) (hd : ∀ c ∈ D, c.isDigit = true) :
    scanBA ('c' :: 'h' :: 'a' :: 'r' :: ' ' :: '*' :: '[' :: (D ++ [']'])) = none := by
  have hnb : ∀ c ∈ D ++ [']'], c ≠ '[' := by
    intro c hc
    rcases List.mem_append.mp hc with hc' | hc'
    · have := hd c hc'
      intro he
      rw [he] at this
      exact absurd this (by decide)
    · intro he
      rw [List.mem_singleton.mp hc'] at he
      cases he
  rw [scanBA_cons_ne 'c' _ (by decide), scanBA_cons_ne 'h' _ (by decide),
      scanBA_cons_ne 'a' _ (by decide), scanBA_cons_ne 'r' _ (by decide),
      scanBA_cons_ne ' ' _ (by decide), scanBA_cons_ne '*' _ (by decide),
      scanBA_cons_bracket, takeWhile_digits D [] hd, dropWhile_digits D [] hd,
      if_neg (fun hcc => absurd hcc.2 (by decide))]
  exact scanBA_no_bracket (D ++ [']']) hnb

/-! ## C3: string to byte array -/

/-- C3: when the source resolves to `string` and the target resolves to a
byte-array spelling (containing `[]byte`) — here the exact `[]byte` — or a
fixed char-pointer array `char *[N]`, `CastExpr` on a basic literal whose
text unquotes to `s` returns a `[]byte` composite literal whose elements are
exactly the bytes of `s` (as quoted CHAR literals) followed by one
terminating NUL integer literal `0`. -/
theorem castExpr_string_to_bytes (resolve : String → Except String String)
    (unquote : String → Option String) (p : Program) (k : LitKind)
    (v s fT tT t : String) (hf : resolve fT = Except.ok "string")
    (ht : resolve tT = Except.ok t) (hv : tT ≠ "void *")
    (htgt : t = "[]byte" ∨ ∃ D : List Char, D ≠ [] ∧ (∀ c ∈ D, c.isDigit = true) ∧
        t.data = 'c' :: 'h' :: 'a' :: 'r' :: ' ' :: '*' :: '[' :: (D ++ [']']))
    (hu : unquote v = some s) :
    CastExpr resolve unquote p (GoExpr.basicLit k v) fT tT
      = CastOut.ret p
          (GoExpr.byteArrayLit
            ((stringBytes s).map (fun c => GoExpr.basicLit LitKind.char (goQuoteByte c))
              ++ [NewIntLit 0])) none := by
  rcases htgt with rfl | ⟨D, hDne, hDdig, hdata⟩
  · unfold CastExpr
    rw [if_neg hv, hf, ht]
    dsimp only
    rw [if_neg (by decide), if_neg (by decide), if_neg (by decide), if_neg (by decide),
        if_neg (by decide), if_neg (by decide), if_neg (by decide), if_neg (by decide),
        if_pos ⟨rfl, Or.inl (by decide)⟩]
    simp only [stringToBytes]
    rw [hu]
  · have hq : t.data.head? = some 'c' := by rw [hdata]; rfl
    have htne : ∀ u : String, u.data.head? ≠ some 'c' → t ≠ u :=
      fun u hh heq => hh (heq ▸ hq)
    have hscan : (scanCP t.data).isSome = true := by
      rw [hdata, scanCP_exact D [] hDne hDdig]; rfl
    have h1 : ¬(("string" : String) = "null" ∧ t = "[][]byte") :=
      fun h => absurd h.1 (by decide)
    have h2 : ¬(("string" : String) = "null" ∧ t = "float64") :=
      fun h => absurd h.1 (by decide)
    have h3 : ¬(("string" : String) = "null" ∧ t = "bool") :=
      fun h => absurd h.1 (by decide)
    have h4 : ¬(("string" : String) = "" ∨ t = "") := fun h =>
      h.elim (fun hx => absurd hx (by decide)) (fun hx => absurd hx (htne "" (by decide)))
    have h5 : ¬(("string" : String) = "null" ∧ t = "[]byte") :=
      fun h => absurd h.1 (by decide)
    have h6 : ¬(("string" : String) = "*_IO_FILE" ∧ t = "*noarch.File") :=
      fun h => absurd h.1 (by decide)
    have h7 : ¬(("string" : String) = t) := fun heq => (htne "string" (by decide)) heq.symm
    have h8 : ¬(("string" : String) ∈ compatibleTypes ∧ t = "bool") :=
      fun h => absurd h.1 (by decide)
    unfold CastExpr
    rw [if_neg hv, hf, ht]
    dsimp only
    rw [if_neg h1, if_neg h2, if_neg h3, if_neg h4, if_neg h5, if_neg h6, if_neg h7,
        if_neg h8, if_pos ⟨rfl, Or.inr hscan⟩]
    simp only [stringToBytes]
    rw [hu]

/-- C3 witness: the literal `"hi"` cast from `string` to `[]byte`. -/
theorem castExpr_string_to_bytes_witness :
    CastExpr idResolve (fun x => if x = "\"hi\"" then some "hi" else none) ⟨[]⟩
        (GoExpr.basicLit LitKind.str "\"hi\"") "string" "[]byte"
      = CastOut.ret ⟨[]⟩
          (GoExpr.byteArrayLit
            ((stringBytes "hi").map (fun c => GoExpr.basicLit LitKind.char (goQuoteByte c))
              ++ [NewIntLit 0])) none :=
  castExpr_string_to_bytes idResolve (fun x => if x = "\"hi\"" then some "hi" else none)
    ⟨[]⟩ LitKind.str "\"hi\"" "hi" "string" "[]byte" "[]byte" rfl rfl (by decide)
    (Or.inl rfl) rfl

/-! ## C4: byte sequence to string -/

/-- C4: when the source resolves to `[N]byte` or to a fixed char-pointer
array `char *[N]` (digit group `D` with value `N`) and the target resolves to
`string`, `CastExpr` returns `string(e[:N-1])`: the slice stops one element
short, trimming the trailing NUL. -/
theorem castExpr_bytes_to_string (resolve : String → Except String String)
    (unquote : String → Option String) (p : Program) (e : GoExpr)
    (fT tT f : String) (D : List Char) (hDne : D ≠ [])
    (hDdig : ∀ c ∈ D, c.isDigit = true) (hf : resolve fT = Except.ok f)
    (ht : resolve tT = Except.ok "string") (hv : tT ≠ "void *")
    (hsrc : f.data = '[' :: (D ++ ']' :: 'b' :: 'y' :: 't' :: 'e' :: [])
          ∨ f.data = 'c' :: 'h' :: 'a' :: 'r' :: ' ' :: '*' :: '[' :: (D ++ [']'])) :
    CastExpr resolve unquote p e fT tT
      = CastOut.ret p (GoExpr.call "string"
          [GoExpr.sliceHigh e (NewIntLit ((digitsVal D : Int) - 1))]) none := by
  rcases hsrc with hdata | hdata
  · have hq : f.data.head? = some '[' := by rw [hdata]; rfl
    have hfne : ∀ u : String, u.data.head? ≠ some '[' → f ≠ u :=
      fun u hh heq => hh (heq ▸ hq)
    have hscan : (scanBA f.data).isSome = true := by
      rw [hdata, scanBA_exact D [] hDne hDdig]; rfl
    have hsize : arraySizeOf f = (digitsVal D : Int) := by
      unfold arraySizeOf
      rw [hdata, scanBA_exact D [] hDne hDdig]
    have h1 : ¬(f = "null" ∧ ("string" : String) = "[][]byte") :=
      fun h => absurd h.2 (by decide)
    have h2 : ¬(f = "null" ∧ ("string" : String) = "float64") :=
      fun h => absurd h.2 (by decide)
    have h3 : ¬(f = "null" ∧ ("string" : String) = "bool") :=
      fun h => absurd h.2 (by decide)
    have h4 : ¬(f = "" ∨ ("string" : String) = "") := fun h =>
      h.elim (fun hx => absurd hx (hfne "" (by decide))) (fun hx => absurd hx (by decide))
    have h5 : ¬(f = "null" ∧ ("string" : String) = "[]byte") :=
      fun h => absurd h.2 (by decide)
    have h6 : ¬(f = "*_IO_FILE" ∧ ("string" : String) = "*noarch.File") :=
      fun h => absurd h.2 (by decide)
    have h7 : ¬(f = "string") := hfne "string" (by decide)
    have h8 : ¬(f ∈ compatibleTypes ∧ ("string" : String) = "bool") :=
      fun h => absurd h.2 (by decide)
    have h9 : ¬(f = "string" ∧
        (containsSeq ("string" : String).data ∨ (scanCP ("string" : String).data).isSome)) :=
      fun h => absurd h.1 h7
    unfold CastExpr
    rw [if_neg hv, hf, ht]
    dsimp only
    rw [if_neg h1, if_neg h2, if_neg h3, if_neg h4, if_neg h5, if_neg h6, if_neg h7,
        if_neg h8, if_neg h9, if_pos ⟨Or.inl hscan, rfl⟩, hsize]
  · have hq : f.data.head? = some 'c' := by rw [hdata]; rfl
    have hfne : ∀ u : String, u.data.head? ≠ some 'c' → f ≠ u :=
      fun u hh heq => hh (heq ▸ hq)
    have hscan : (scanCP f.data).isSome = true := by
      rw [hdata, scanCP_exact D [] hDne hDdig]; rfl
    have hsize : arraySizeOf f = (digitsVal D : Int) := by
      unfold arraySizeOf
      rw [hdata, scanBA_charptr_none D hDdig, scanCP_exact D [] hDne hDdig]
    have h1 : ¬(f = "null" ∧ ("string" : String) = "[][]byte") :=
      fun h => absurd h.2 (by decide)
    have h2 : ¬(f = "null" ∧ ("string" : String) = "float64") :=
      fun h => absurd h.2 (by decide)
    have h3 : ¬(f = "null" ∧ ("string" : String) = "bool") :=
      fun h => absurd h.2 (by decide)
    have h4 : ¬(f = "" ∨ ("string" : String) = "") := fun h =>
      h.elim (fun hx => absurd hx (hfne "" (by decide))) (fun hx => absurd hx (by decide))
    have h5 : ¬(f = "null" ∧ ("string" : String) = "[]byte") :=
      fun h => absurd h.2 (by decide)
    have h6 : ¬(f = "*_IO_FILE" ∧ ("string" : String) = "*noarch.File") :=
      fun h => absurd h.2 (by decide)
    have h7 : ¬(f = "string") := hfne "string" (by decide)
    have h8 : ¬(f ∈ compatibleTypes ∧ ("string" : String) = "bool") :=
      fun h => absurd h.2 (by decide)
    have h9 : ¬(f = "string" ∧
        (containsSeq ("string" : String).data ∨ (scanCP ("string" : String).data).isSome)) :=
      fun h => absurd h.1 h7
    unfold CastExpr
    rw [if_neg hv, hf, ht]
    dsimp only
    rw [if_neg h1, if_neg h2, if_neg h3, if_neg h4, if_neg h5, if_neg h6, if_neg h7,
        if_neg h8, if_neg h9, if_pos ⟨Or.inr hscan, rfl⟩, hsize]

/-- C4 witness: `[6]byte` to `string` yields `string(e[:5])`. -/
theorem castExpr_bytes_to_string_witness :
    CastExpr idResolve noUnquote ⟨[]⟩ (GoExpr.ident "e") "[6]byte" "string"
      = CastOut.ret ⟨[]⟩ (GoExpr.call "string"
          [GoExpr.sliceHigh (GoExpr.ident "e") (NewIntLit ((digitsVal ['6'] : Int) - 1))]) none :=
  castExpr_bytes_to_string idResolve noUnquote ⟨[]⟩ (GoExpr.ident "e") "[6]byte" "string"
    "[6]byte" ['6'] (by decide) (by decide) rfl rfl (by decide) (Or.inl rfl)

/-! ## C7: fallback shim call -/

/-- C7: for a conversion matched by no earlier rule (all earlier guards
false), `CastExpr` strips package prefixes from both resolved spellings,
returns the call `noarch.<From>To<To>(e)` built from the exported-cased
remainders, registers the noarch runtime import on the Program Context, and
reports no error. -/
theorem castExpr_fallback (resolve : String → Except String String)
    (unquote : String → Option String) (p : Program) (e : GoExpr)
    (fT tT f t : String) (hf : resolve fT = Except.ok f)
    (ht : resolve tT = Except.ok t) (hv : tT ≠ "void *")
    (h1 : ¬(f = "null" ∧ t = "[][]byte")) (h2 : ¬(f = "null" ∧ t = "float64"))
    (h3 : ¬(f = "null" ∧ t = "bool")) (h4 : ¬(f = "" ∨ t = ""))
    (h5 : ¬(f = "null" ∧ t = "[]byte"))
    (h6 : ¬(f = "*_IO_FILE" ∧ t = "*noarch.File")) (h7 : f ≠ t)
    (h8 : ¬(f ∈ compatibleTypes ∧ t = "bool"))
    (h9 : ¬(f = "string" ∧ (containsSeq t.data ∨ (scanCP t.data).isSome)))
    (h10 : ¬(((scanBA f.data).isSome ∨ (scanCP f.data).isSome) ∧ t = "string"))
    (h11 : ¬(f.data.head? = some '*' ∧ t = "bool"))
    (h12 : ¬(f = "[]byte" ∧ t = "bool")) (h13 : ¬(f = "int" ∧ t = "*int"))
    (h14 : ¬(f = "int" ∧ t = "*byte")) (h15 : ¬(f = "_Bool" ∧ t = "bool"))
    (h16 : ¬(f ∈ compatibleTypes ∧ t ∈ compatibleTypes)) :
    CastExpr resolve unquote p e fT tT
      = CastOut.ret (p.AddImport noarchPath)
          (GoExpr.call ("noarch." ++ GetExportedName (lastDotComponent f) ++ "To"
            ++ GetExportedName (lastDotComponent t)) [e]) none := by
  unfold CastExpr
  rw [if_neg hv, hf, ht]
  dsimp only
  rw [if_neg h1, if_neg h2, if_neg h3, if_neg h4, if_neg h5, if_neg h6, if_neg h7,
      if_neg h8, if_neg h9, if_neg h10]
  cases hdt : f.data with
  | nil => exact absurd (Or.inl (string_eq_empty_of_data_nil hdt)) h4
  | cons c0 tl =>
    dsimp only
    have h11' : ¬(c0 = '*' ∧ t = "bool") :=
      fun hcc => h11 ⟨by rw [hdt, List.head?_cons, hcc.1], hcc.2⟩
    rw [if_neg h11', if_neg h12, if_neg h13, if_neg h14, if_neg h15, if_neg h16]

/-- C7 witness: `Foo` to `Bar` falls back to `noarch.FooToBar(x)` and
registers the noarch import. -/
theorem castExpr_fallback_witness :
    CastExpr idResolve noUnquote ⟨[]⟩ (GoExpr.ident "x") "Foo" "Bar"
      = CastOut.ret (Program.AddImport ⟨[]⟩ noarchPath)
          (GoExpr.call ("noarch." ++ GetExportedName (lastDotComponent "Foo") ++ "To"
            ++ GetExportedName (lastDotComponent "Bar")) [GoExpr.ident "x"]) none :=
  castExpr_fallback idResolve noUnquote ⟨[]⟩ (GoExpr.ident "x") "Foo" "Bar" "Foo" "Bar"
    rfl rfl (by decide) (by decide) (by decide) (by decide) (by decide) (by decide)
    (by decide) (by decide) (by decide) (by decide) (by decide) (by decide)
    (by decide) (by decide) (by decide) (by decide) (by decide)

/-! ## C8: error channel of CastExpr -/

/-- Complete case analysis of a `CastExpr` call: it returns with a nil error,
or returns the input expression with the resolution error, or panics inside
the string-to-byte-array rule after both spellings resolved. -/
lemma castExpr_outcomes (resolve : String → Except String String)
    (unquote : String → Option String) (p : Program) (e : GoExpr)
    (fT tT : String) :
    (∃ p' e', CastExpr resolve unquote p e fT tT = CastOut.ret p' e' none)
  ∨ (∃ m, CastExpr resolve unquote p e fT tT = CastOut.ret p e (some m)
        ∧ (resolve fT = Except.error m ∨ resolve tT = Except.error m))
  ∨ ((CastExpr resolve unquote p e fT tT = CastOut.panicAssert
        ∨ ∃ m, CastExpr resolve unquote p e fT tT = CastOut.panicUnquote m)
      ∧ ∃ f t, resolve fT = Except.ok f ∧ resolve tT = Except.ok t) := by
  by_cases hv : tT = "void *"
  · exact Or.inl ⟨p, e, by unfold CastExpr; rw [if_pos hv]⟩
  cases hrf : resolve fT with
  | error m =>
    exact Or.inr (Or.inl ⟨m, by unfold CastExpr; rw [if_neg hv, hrf], Or.inl rfl⟩)
  | ok f =>
  cases hrt : resolve tT with
  | error m =>
    exact Or.inr (Or.inl ⟨m, by unfold CastExpr; rw [if_neg hv, hrf, hrt], Or.inr rfl⟩)
  | ok t =>
  unfold CastExpr
  rw [if_neg hv, hrf, hrt]
  dsimp only
  by_cases h1 : f = "null" ∧ t = "[][]byte"
  · rw [if_pos h1]; exact Or.inl ⟨p, NewNil, rfl⟩
  rw [if_neg h1]
  by_cases h2 : f = "null" ∧ t = "float64"
  · rw [if_pos h2]; exact Or.inl ⟨p, NewFloatLit0, rfl⟩
  rw [if_neg h2]
  by_cases h3 : f = "null" ∧ t = "bool"
  · rw [if_pos h3]; exact Or.inl ⟨p, GoExpr.ident "false", rfl⟩
  rw [if_neg h3]
  by_cases h4 : f = "" ∨ t = ""
  · rw [if_pos h4]; exact Or.inl ⟨p, e, rfl⟩
  rw [if_neg h4]
  by_cases h5 : f = "null" ∧ t = "[]byte"
  · rw [if_pos h5]; exact Or.inl ⟨p, NewNil, rfl⟩
  rw [if_neg h5]
  by_cases h6 : f = "*_IO_FILE" ∧ t = "*noarch.File"
  · rw [if_pos h6]; exact Or.inl ⟨p, e, rfl⟩
  rw [if_neg h6]
  by_cases h7 : f = t
  · rw [if_pos h7]; exact Or.inl ⟨p, e, rfl⟩
  rw [if_neg h7]
  by_cases h8 : f ∈ compatibleTypes ∧ t = "bool"
  · rw [if_pos h8]; exact Or.inl ⟨p, _, rfl⟩
  rw [if_neg h8]
  by_cases h9 : f = "string" ∧ (containsSeq t.data ∨ (scanCP t.data).isSome)
  · rw [if_pos h9]
    rcases e with s | ⟨k, v⟩ | ⟨a, o, b⟩ | ⟨o, a⟩ | ⟨fn, args⟩ | els | ⟨a, hgh⟩
    · exact Or.inr (Or.inr ⟨Or.inl rfl, f, t, rfl, rfl⟩)
    · simp only [stringToBytes]
      cases hu : unquote v with
      | none => exact Or.inr (Or.inr ⟨Or.inr ⟨_, rfl⟩, f, t, rfl, rfl⟩)
      | some sv => exact Or.inl ⟨p, _, rfl⟩
    · exact Or.inr (Or.inr ⟨Or.inl rfl, f, t, rfl, rfl⟩)
    · exact Or.inr (Or.inr ⟨Or.inl rfl, f, t, rfl, rfl⟩)
    · exact Or.inr (Or.inr ⟨Or.inl rfl, f, t, rfl, rfl⟩)
    · exact Or.inr (Or.inr ⟨Or.inl rfl, f, t, rfl, rfl⟩)
    · exact Or.inr (Or.inr ⟨Or.inl rfl, f, t, rfl, rfl⟩)
  rw [if_neg h9]
  by_cases h10 : ((scanBA f.data).isSome ∨ (scanCP f.data).isSome) ∧ t = "string"
  · rw [if_pos h10]; exact Or.inl ⟨p, _, rfl⟩
  rw [if_neg h10]
  cases hdt : f.data with
  | nil => exact absurd (Or.inl (string_eq_empty_of_data_nil hdt)) h4
  | cons c0 tl =>
  dsimp only
  by_cases h11 : c0 = '*' ∧ t = "bool"
  · rw [if_pos h11]; exact Or.inl ⟨p, _, rfl⟩
  rw [if_neg h11]
  by_cases h12 : f = "[]byte" ∧ t = "bool"
  · rw [if_pos h12]; exact Or.inl ⟨p, _, rfl⟩
  rw [if_neg h12]
  by_cases h13 : f = "int" ∧ t = "*int"
  · rw [if_pos h13]; exact Or.inl ⟨p, NewNil, rfl⟩
  rw [if_neg h13]
  by_cases h14 : f = "int" ∧ t = "*byte"
  · rw [if_pos h14]; exact Or.inl ⟨p, _, rfl⟩
  rw [if_neg h14]
  by_cases h15 : f = "_Bool" ∧ t = "bool"
  · rw [if_pos h15]; exact Or.inl ⟨p, e, rfl⟩
  rw [if_neg h15]
  by_cases h16 : f ∈ compatibleTypes ∧ t ∈ compatibleTypes
  · rw [if_pos h16]; exact Or.inl ⟨p, _, rfl⟩
  rw [if_neg h16]
  exact Or.inl ⟨p.AddImport noarchPath, _, rfl⟩

/-- C8 (amended): `CastExpr` returns a non-nil error only when type
resolution fails on the source or the target spelling; when both spellings
resolve successfully it returns a nil error together with some expression,
except that the string-to-byte-array rule panics when the source expression
is not a basic literal or its text does not unquote. -/
theorem castExpr_error_only_on_resolve_failure (resolve : String → Except String String)
    (unquote : String → Option String) (p : Program) (e : GoExpr)
    (fT tT : String) :
    (∀ p' e' m, CastExpr resolve unquote p e fT tT = CastOut.ret p' e' (some m) →
        resolve fT = Except.error m ∨ resolve tT = Except.error m)
  ∧ (∀ f t, resolve fT = Except.ok f → resolve tT = Except.ok t →
      (∃ p' e', CastExpr resolve unquote p e fT tT = CastOut.ret p' e' none)
      ∨ CastExpr resolve unquote p e fT tT = CastOut.panicAssert
      ∨ (∃ m, CastExpr resolve unquote p e fT tT = CastOut.panicUnquote m)) := by
  obtain ⟨p', e', hret⟩ | ⟨m, hret, herr⟩ | ⟨hp, f, t, hfok, htok⟩ :=
    castExpr_outcomes resolve unquote p e fT tT
  · constructor
    · intro p'' e'' m hm
      rw [hret] at hm
      obtain ⟨-, -, h3⟩ := CastOut.ret.inj hm
      cases h3
    · intro f t _ _
      exact Or.inl ⟨p', e', hret⟩
  · constructor
    · intro p'' e'' m' hm
      rw [hret] at hm
      obtain ⟨-, -, h3⟩ := CastOut.ret.inj hm
      obtain rfl := (Option.some.inj h3)
      exact herr
    · intro f t hfok htok
      rcases herr with he | he
      · rw [hfok] at he; cases he
      · rw [htok] at he; cases he
  · constructor
    · intro p'' e'' m hm
      rcases hp with hpa | ⟨m', hpu⟩
      · rw [hpa] at hm; cases hm
      · rw [hpu] at hm; cases hm
    · intro f' t' _ _
      rcases hp with hpa | ⟨m', hpu⟩
      · exact Or.inr (Or.inl hpa)
      · exact Or.inr (Or.inr ⟨m', hpu⟩)

/-- C8 witness: with both spellings resolving (`int`, `bool`), the call
returns a nil error with some expression (or one of the listed panics). -/
theorem castExpr_error_only_on_resolve_failure_witness :
    (∃ p' e', CastExpr idResolve noUnquote ⟨[]⟩ (GoExpr.ident "x") "int" "bool"
        = CastOut.ret p' e' none)
    ∨ CastExpr idResolve noUnquote ⟨[]⟩ (GoExpr.ident "x") "int" "bool"
        = CastOut.panicAssert
    ∨ (∃ m, CastExpr idResolve noUnquote ⟨[]⟩ (GoExpr.ident "x") "int" "bool"
        = CastOut.panicUnquote m) :=
  (castExpr_error_only_on_resolve_failure idResolve noUnquote ⟨[]⟩ (GoExpr.ident "x")
    "int" "bool").2 "int" "bool" rfl rfl

/-- C8 counterexample: `string` and `[]byte` both resolve, but on a
non-literal expression the call panics in the type assertion instead of
returning a nil error with an expression. -/
theorem castExpr_resolved_call_panics_cex :
    CastExpr idResolve noUnquote ⟨[]⟩ (GoExpr.ident "x") "string" "[]byte"
      = CastOut.panicAssert
  ∧ ¬ ∃ p' e', CastExpr idResolve noUnquote ⟨[]⟩ (GoExpr.ident "x") "string" "[]byte"
      = CastOut.ret p' e' none := by
  have h0 : CastExpr idResolve noUnquote ⟨[]⟩ (GoExpr.ident "x") "string" "[]byte"
      = CastOut.panicAssert := rfl
  refine ⟨h0, ?_⟩
  rintro ⟨p', e', hc⟩
  rw [h0] at hc
  cases hc

/-! ## C9: GetArrayTypeAndSize -/

lemma patternAt_at (D B : List Char) (hne : D ≠ [])
    (hd : ∀ c ∈ D, c.isDigit = true) :
    patternAt (' ' :: '[' :: (D ++ ']' :: B)) = some (digitsVal D) := by
  simp only [patternAt]
  rw [if_pos (by exact ⟨trivial, trivial⟩), takeWhile_digits D B hd, dropWhile_digits D B hd,
      if_pos ⟨hne, rfl⟩]

lemma patternAt_not_space (c : Char) (rest : List Char) (h : ¬ c = ' ') :
    patternAt (c :: rest) = none := by
  cases rest with
  | nil => rfl
  | cons c2 r2 =>
    simp only [patternAt]
    rw [if_neg (fun hc => h hc.1)]

lemma patternAt_sound (l : List Char) (n : Nat) (h : patternAt l = some n) :
    ∃ D B, l = ' ' :: '[' :: (D ++ ']' :: B) ∧ D ≠ []
      ∧ ∀ c ∈ D, c.isDigit = true := by
  cases l with
  | nil => cases h
  | cons c1 rest =>
  cases rest with
  | nil => cases h
  | cons c2 r2 =>
  simp only [patternAt] at h
  by_cases hc : c1 = ' ' ∧ c2 = '['
  · rw [if_pos hc] at h
    by_cases hdd : r2.takeWhile Char.isDigit ≠ []
        ∧ (r2.dropWhile Char.isDigit).head? = some ']'
    · cases hx : r2.dropWhile Char.isDigit with
      | nil => rw [hx] at hdd; cases hdd.2
      | cons a tl =>
        have ha : a = ']' := by
          have h2 := hdd.2
          rw [hx] at h2
          simpa using h2
        refine ⟨r2.takeWhile Char.isDigit, tl, ?_, hdd.1,
          fun c hc' => List.mem_takeWhile_imp hc'⟩
        have hsplit : r2 = r2.takeWhile Char.isDigit ++ ']' :: tl := by
          conv_lhs => rw [← List.takeWhile_append_dropWhile Char.isDigit r2]
          rw [hx, ha]
        rw [hc.1, hc.2]
        exact congrArg (fun x => ' ' :: '[' :: x) hsplit
    · rw [if_neg hdd] at h; cases h
  · rw [if_neg hc] at h; cases h

lemma tryStart_cons (c : Char) (rest : List Char) :
    tryStart (c :: rest)
      = if c = '\n' then none
        else
          match tryStart rest with
          | some (A, n) => some (c :: A, n)
          | none =>
            match patternAt (c :: rest) with
            | some n => some ([], n)
            | none => none := by
  simp only [tryStart]

lemma tryStart_sound (l : List Char) (A : List Char) (n : Nat)
    (h : tryStart l = some (A, n)) :
    ∃ D B, l = A ++ ' ' :: '[' :: (D ++ ']' :: B) ∧ D ≠ []
      ∧ ∀ c ∈ D, c.isDigit = true := by
  induction l generalizing A n with
  | nil => cases h
  | cons c rest ih =>
    rw [tryStart_cons] at h
    by_cases hnl : c = '\n'
    · rw [if_pos hnl] at h; cases h
    rw [if_neg hnl] at h
    cases hts : tryStart rest with
    | some pr =>
      obtain ⟨A', n'⟩ := pr
      rw [hts] at h
      dsimp only at h
      obtain ⟨h1, h2⟩ := Prod.mk.inj (Option.some.inj h)
      obtain ⟨D, B, heq, hne, hdig⟩ := ih A' n' hts
      refine ⟨D, B, ?_, hne, hdig⟩
      rw [← h1, heq]
      rfl
    | none =>
      rw [hts] at h
      dsimp only at h
      cases hpa : patternAt (c :: rest) with
      | none => rw [hpa] at h; cases h
      | some n' =>
        rw [hpa] at h
        dsimp only at h
        obtain ⟨h1, h2⟩ := Prod.mk.inj (Option.some.inj h)
        obtain ⟨D, B, heq, hne, hdig⟩ := patternAt_sound _ _ hpa
        refine ⟨D, B, ?_, hne, hdig⟩
        rw [← h1, heq]
        rfl

lemma findGats_sound (l : List Char) (A : List Char) (n : Nat)
    (h : findGats l = some (A, n)) :
    ∃ P D B, l = P ++ ' ' :: '[' :: (D ++ ']' :: B) ∧ D ≠ []
      ∧ ∀ c ∈ D, c.isDigit = true := by
  induction l with
  | nil => cases h
  | cons c rest ih =>
    simp only [findGats] at h
    cases hts : tryStart (c :: rest) with
    | some r =>
      rw [hts] at h
      dsimp only at h
      obtain rfl := Option.some.inj h
      obtain ⟨D, B, heq, hne, hdig⟩ := tryStart_sound _ _ _ hts
      exact ⟨A, D, B, heq, hne, hdig⟩
    | none =>
      rw [hts] at h
      dsimp only at h
      obtain ⟨P, D, B, heq, hne, hdig⟩ := ih h
      exact ⟨c :: P, D, B, by rw [heq]; rfl, hne, hdig⟩

lemma tryStart_none_of_no_space (l : List Char) (h : ∀ c ∈ l, c ≠ ' ') :
    tryStart l = none := by
  induction l with
  | nil => rfl
  | cons c rest ih =>
    rw [tryStart_cons]
    by_cases hnl : c = '\n'
    · rw [if_pos hnl]
    · rw [if_neg hnl, ih (fun x hx => h x (List.mem_cons_of_mem c hx)),
          patternAt_not_space c rest (h c (List.mem_cons_self c rest))]

lemma tryStart_full (T D : List Char) (hT : '\n' ∉ T) (hne : D ≠ [])
    (hd : ∀ c ∈ D, c.isDigit = true) :
    tryStart (T ++ ' ' :: '[' :: (D ++ [']'])) = some (T, digitsVal D) := by
  induction T with
  | nil =>
    have hnospace : ∀ c ∈ '[' :: (D ++ [']']), c ≠ ' ' := by
      intro c hc
      rcases List.mem_cons.mp hc with rfl | hc'
      · decide
      rcases List.mem_append.mp hc' with hc'' | hc''
      · have := hd c hc''
        intro he
        rw [he] at this
        exact absurd this (by decide)
      · rw [List.mem_singleton.mp hc'']
        decide
    rw [List.nil_append, tryStart_cons, if_neg (by decide : ¬(' ' : Char) = '\n'),
        tryStart_none_of_no_space ('[' :: (D ++ [']'])) hnospace,
        patternAt_at D [] hne hd]
  | cons a T' ih =>
    have hanl : ¬ a = '\n' := fun he => hT (he ▸ List.mem_cons_self a T')
    rw [List.cons_append, tryStart_cons, if_neg hanl,
        ih (fun hx => hT (List.mem_cons_of_mem a hx))]

lemma findGats_of_tryStart (l : List Char) (r : List Char × Nat)
    (h : tryStart l = some r) : findGats l = some r := by
  cases l with
  | nil => cases h
  | cons c rest =>
    simp only [findGats]
    rw [h]

/-- C9 (amended): for every newline-free element spelling `T` and non-empty
digit string `D`, `GetArrayTypeAndSize (T ++ " [" ++ D ++ "]")` returns `T`
and the value of `D`; and every spelling with no ` [N]` occurrence at all —
incomplete arrays `T []` included — returns `("", -1)`.  (The regex is
unanchored, so a spelling that merely contains ` [N]` does not return
`("", -1)`; see the counterexample.) -/
theorem getArrayTypeAndSize_amended :
    (∀ T D : String, '\n' ∉ T.data → D.data ≠ [] → (∀ c ∈ D.data, c.isDigit = true) →
        GetArrayTypeAndSize (T ++ " [" ++ D ++ "]") = (T, (digitsVal D.data : Int)))
  ∧ (∀ s : String,
      (¬ ∃ A D B : List Char, s.data = A ++ ' ' :: '[' :: (D ++ ']' :: B) ∧ D ≠ []
          ∧ ∀ c ∈ D, c.isDigit = true) →
      GetArrayTypeAndSize s = ("", -1)) := by
  constructor
  · intro T D hT hDne hDdig
    have hdata : (T ++ " [" ++ D ++ "]").data
        = T.data ++ ' ' :: '[' :: (D.data ++ [']']) := by
      simp [String.data_append, List.append_assoc]
    unfold GetArrayTypeAndSize
    rw [hdata, findGats_of_tryStart _ _ (tryStart_full T.data D.data hT hDne hDdig)]
  · intro s hno
    cases hfg : findGats s.data with
    | none => unfold GetArrayTypeAndSize; rw [hfg]
    | some r =>
      obtain ⟨A, n⟩ := r
      obtain ⟨P, Dx, B, heq, hne, hdig⟩ := findGats_sound s.data A n hfg
      exact absurd ⟨P, Dx, B, heq, hne, hdig⟩ hno

/-- C9 witness: `"int [10]"` parses into element type `int` and size 10. -/
theorem getArrayTypeAndSize_amended_witness :
    GetArrayTypeAndSize ("int" ++ " [" ++ "10" ++ "]")
      = ("int", (digitsVal "10".data : Int)) :=
  getArrayTypeAndSize_amended.1 "int" "10" (by decide) (by decide) (by decide)

/-- C9 counterexample: `"int [3]x"` is not of the form `T [N]` (it does not
end at the bracket), yet the unanchored regex still matches and the function
returns `("int", 3)` instead of `("", -1)`. -/
theorem getArrayTypeAndSize_unanchored_cex :
    GetArrayTypeAndSize "int [3]x" = ("int", 3)
  ∧ (("int", (3 : Int)) ≠ (("", -1) : String × Int)) :=
  ⟨rfl, by decide⟩
